import Mathlib

/-!
Shallow embedding of the scoop-easy backend (src/backend/main.py) and proofs
about its specification claims.  Python strings are modelled as Lean
`String`, decoded JSON values as the `Json` inductive below, the SQLite log
table as a Lean list in insertion order, and fallible Python code as
`Except PyErr`.
-/

namespace ScoopEasy

/-- Characters Python treats as whitespace in `str.split()` and `str.strip()`
(the ASCII whitespace class; the console text handled here is ASCII-spaced). -/
def pyIsSpace (c : Char) : Bool :=
  c.val == 32 || c.val == 9 || c.val == 10 || c.val == 13 || c.val == 11 || c.val == 12

/-- Python `str.strip()` with no arguments: drop leading and trailing whitespace. -/
def pyStrip (s : String) : String :=
  String.mk (((s.toList.dropWhile pyIsSpace).reverse.dropWhile pyIsSpace).reverse)

/-- Split a character list at every character satisfying `p`, keeping empty
segments (the semantics of splitting on a one-character separator). -/
def splitPredL (p : Char → Bool) : List Char → List (List Char)
  | [] => [[]]
  | c :: rest =>
      let r := splitPredL p rest
      if p c then [] :: r
      else (c :: r.headD []) :: r.tail

/-- Python `str.split(sep)` for a one-character separator. -/
def pySplitChar (s : String) (sep : Char) : List String :=
  (splitPredL (fun c => c == sep) s.toList).map String.mk

/-- The newline character (the source splits console text on "\n"). -/
def nlChar : Char := Char.ofNat 10

/-- The path separator character. -/
def slashChar : Char := Char.ofNat 47

/-- The single-quote character (the grouped search output marks buckets with it). -/
def quoteChar : Char := Char.ofNat 39

/-- Python `text.split("\n")`. -/
def pyLines (s : String) : List String := pySplitChar s nlChar

/-- Python `str.split()` with no arguments: split on whitespace runs,
dropping empty pieces. -/
def pySplitWs (s : String) : List String :=
  ((splitPredL pyIsSpace s.toList).map String.mk).filter (fun t => t != "")

/-- Prefix test on character lists (Python `str.startswith` decomposed). -/
def startsWithL : List Char → List Char → Bool
  | _, [] => true
  | [], _ :: _ => false
  | c :: cs, d :: ds => c == d && startsWithL cs ds

/-- Substring containment on character lists (Python `needle in hay`). -/
def containsL : List Char → List Char → Bool
  | [], needle => needle.isEmpty
  | c :: cs, needle => startsWithL (c :: cs) needle || containsL cs needle

/-- Python `needle in hay` on strings. -/
def containsS (hay needle : String) : Bool := containsL hay.toList needle.toList

/-- Python `str.startswith`. -/
def pyStartsWith (s pre : String) : Bool := startsWithL s.toList pre.toList

/-- Python `str.endswith`. -/
def pyEndsWith (s suf : String) : Bool := startsWithL s.toList.reverse suf.toList.reverse

/-- Python `str.lower()` (ASCII case folding, which covers the markers the
source compares: "held", "bucket"). -/
def pyLower (s : String) : String := String.mk (s.toList.map Char.toLower)

/-- JSON values as `json.loads` produces them; numeric literals are
restricted to integers, which covers every value this program inspects. -/
inductive Json where
  | null
  | bool (b : Bool)
  | num (n : Int)
  | str (s : String)
  | arr (elems : List Json)
  | obj (fields : List (String × Json))

mutual

/-- Python `repr` of a JSON-shaped value (quote escaping inside strings is
not modelled; no theorem depends on these cases). -/
def pyRepr : Json → String
  | .null => "None"
  | .bool b => if b then "True" else "False"
  | .num n => toString n
  | .str s => "\x27" ++ s ++ "\x27"
  | .arr xs => "[" ++ pyReprSeq xs ++ "]"
  | .obj kvs => "\x7b" ++ pyReprFields kvs ++ "\x7d"

/-- Comma-separated reprs of a list of values. -/
def pyReprSeq : List Json → String
  | [] => ""
  | [x] => pyRepr x
  | x :: y :: rest => pyRepr x ++ ", " ++ pyReprSeq (y :: rest)

/-- Comma-separated reprs of the fields of a mapping. -/
def pyReprFields : List (String × Json) → String
  | [] => ""
  | [(k, v)] => "\x27" ++ k ++ "\x27: " ++ pyRepr v
  | (k, v) :: p :: rest => "\x27" ++ k ++ "\x27: " ++ pyRepr v ++ ", " ++ pyReprFields (p :: rest)

end

/-- Python `str()` of a JSON-shaped value, as f-string interpolation applies it. -/
def pyStr (j : Json) : String :=
  match j with
  | .str s => s
  | other => pyRepr other

/-- Python equality of a JSON value against a string literal: the only
comparison the membership tests in this code perform.  A value of any
non-string type never equals a `str`. -/
def jsonEqStr (j : Json) (s : String) : Bool :=
  match j with
  | .str t => t == s
  | _ => false

/-- Python truthiness of a JSON-shaped value. -/
def pyTruthy : Json → Bool
  | .null => false
  | .bool b => b
  | .num n => n != 0
  | .str s => s != ""
  | .arr xs => !xs.isEmpty
  | .obj kvs => !kvs.isEmpty

/-- The Python exception kinds the embedded code can raise
(`progErr` is sqlite3.ProgrammingError from binding an unsupported
parameter type). -/
inductive PyErr where
  | typeErr
  | attrErr
  | keyErr
  | valueErr
  | progErr

/-- `str(e)` for a modelled exception (logged when the middleware catches one). -/
def pyErrStr : PyErr → String
  | .typeErr => "TypeError"
  | .attrErr => "AttributeError"
  | .keyErr => "KeyError"
  | .valueErr => "ValueError"
  | .progErr => "ProgrammingError"

/-- First-match lookup in the field list of a mapping (Python `dict`
keys are unique, so first match is the match). -/
def pyLookupJ (kvs : List (String × Json)) (k : String) : Option Json :=
  (kvs.find? (fun p => p.1 == k)).map (fun p => p.2)

/-- Python `str.isdigit` on one character: true for decimal digits and for
the further Unicode Numeric_Type=Digit characters; the Latin-1 superscripts
(U+00B9, U+00B2, U+00B3) stand in for that non-decimal class here. -/
def pyCharIsdigit (c : Char) : Bool :=
  c.isDigit || c.val == 178 || c.val == 179 || c.val == 185

/-- Python `str.isdigit` on a string: non-empty and all digit-type characters. -/
def pyIsdigit (s : String) : Bool :=
  s.length != 0 && s.toList.all pyCharIsdigit

/-- Python `int()` on a token of digit-type characters: succeeds exactly on
non-empty strings of decimal digits; `int` rejects the superscript digits
that `isdigit` accepts, raising ValueError. -/
def pyToInt (s : String) : Option Int :=
  if s.length != 0 && s.toList.all Char.isDigit then
    some (Int.ofNat (s.toList.foldl (fun acc c => acc * 10 + (c.toNat - 48)) 0))
  else none

/-! ## Audit log (append_log / read_logs / clear_logs, main.py lines 128-164)

The SQLite table is modelled as a Lean list in insertion order: the
AUTOINCREMENT `id` column is exactly the position in this list. -/

/-- One persisted row of the `logs` table.  `success` is stored as 1/0 and
read back through `bool()`, a round trip modelled directly as `Bool`. -/
structure LogEntry where
  time : String
  operation : String
  command : String
  success : Bool
  message : Json

/-- SQLite TEXT-affinity storage of a bound scalar under the `message TEXT`
column: numeric values (Python bools bind as the integers 1/0) are converted
to their text form before storing; strings are stored unchanged.  (NULL
would stay NULL, but a falsy message has already been replaced by "".) -/
def sqliteTextOf : Json → Json
  | .bool b => Json.str (if b then "1" else "0")
  | .num n => Json.str (toString n)
  | j => j

/-- `append_log`: INSERT of one row.  The caller-generated timestamp
(`datetime.now().isoformat()` in the source) is passed explicitly;
`message or ""` replaces a falsy message by the empty string.  Binding the
message parameter raises sqlite3.ProgrammingError when it is a (truthy)
list or dict — the driver cannot bind those types — and otherwise stores it
under the message column's TEXT affinity. -/
def append_log (now op cmd : String) (success : Bool) (message : Json)
    (log : List LogEntry) : Except PyErr (List LogEntry) :=
  match (if pyTruthy message then message else Json.str "") with
  | .arr _ => .error PyErr.progErr
  | .obj _ => .error PyErr.progErr
  | m => .ok (log ++ [{ time := now, operation := op, command := cmd,
                        success := success, message := sqliteTextOf m }])

/-- `read_logs`: SELECT ... ORDER BY id DESC LIMIT ?.  `id` is the monotone
insertion order, so the rows come back as the reverse of the stored list;
SQLite treats a negative LIMIT as unbounded. -/
def read_logs (limit : Int) (log : List LogEntry) : List LogEntry :=
  if limit < 0 then log.reverse else log.reverse.take limit.toNat

/-- `clear_logs`: DELETE FROM logs. -/
def clear_logs (_log : List LogEntry) : List LogEntry := []

/-- GET /api/logs handler: passes its `limit` query parameter (default 100,
no validation constraint) straight to `read_logs`. -/
def get_logs (limit : Int) (log : List LogEntry) : List LogEntry := read_logs limit log

/-- The stored form of an entry: what `append_log` writes for given fields
(falsy messages become "", scalars are stored as text). -/
def storedEntry (e : LogEntry) : LogEntry :=
  { e with message := sqliteTextOf (if pyTruthy e.message then e.message else Json.str "") }

/-- Whether the bound message (after `message or ""`) is a value the sqlite3
driver can bind: anything except a (truthy) list or dict. -/
def sqliteBindable (m : Json) : Bool :=
  match (if pyTruthy m then m else Json.str "") with
  | .arr _ => false
  | .obj _ => false
  | _ => true

/-- Append a sequence of entries in order, stopping at the first binding
error like the source loop would. -/
def append_entries (log : List LogEntry) : List LogEntry → Except PyErr (List LogEntry)
  | [] => .ok log
  | e :: rest => do
      let log2 ← append_log e.time e.operation e.command e.success e.message log
      append_entries log2 rest

theorem exBindOk {α β : Type} (a : α) (f : α → Except PyErr β) :
    (Except.ok a >>= f) = f a := rfl

theorem append_log_bindable (now op cmd : String) (succ : Bool) (m : Json)
    (log : List LogEntry) (hb : sqliteBindable m = true) :
    append_log now op cmd succ m log
      = .ok (log ++ [{ time := now, operation := op, command := cmd, success := succ,
                       message := sqliteTextOf (if pyTruthy m then m else Json.str "") }]) := by
  unfold append_log
  unfold sqliteBindable at hb
  cases hcol : (if pyTruthy m then m else Json.str "") with
  | arr xs => rw [hcol] at hb; exact absurd hb (by simp)
  | obj kvs => rw [hcol] at hb; exact absurd hb (by simp)
  | null => rfl
  | bool b => rfl
  | num n => rfl
  | str s => rfl

theorem append_log_not_bindable (now op cmd : String) (succ : Bool) (m : Json)
    (log : List LogEntry) (hb : sqliteBindable m = false) :
    append_log now op cmd succ m log = .error PyErr.progErr := by
  unfold append_log
  unfold sqliteBindable at hb
  cases hcol : (if pyTruthy m then m else Json.str "") with
  | arr xs => rfl
  | obj kvs => rfl
  | null => rw [hcol] at hb; simp at hb
  | bool b => rw [hcol] at hb; simp at hb
  | num n => rw [hcol] at hb; simp at hb
  | str s => rw [hcol] at hb; simp at hb

theorem storedStrMsg (m : String) :
    (if pyTruthy (Json.str m) then Json.str m else Json.str "") = Json.str m := by
  by_cases h : m = ""
  · subst h; simp [pyTruthy]
  · simp [pyTruthy, h]

theorem append_log_str (now op cmd : String) (succ : Bool) (e : String)
    (log : List LogEntry) :
    append_log now op cmd succ (Json.str e) log
      = .ok (log ++ [{ time := now, operation := op, command := cmd, success := succ,
                       message := Json.str e }]) := by
  have hb : sqliteBindable (Json.str e) = true := by
    unfold sqliteBindable
    rw [storedStrMsg]
  rw [append_log_bindable now op cmd succ (Json.str e) log hb, storedStrMsg]
  rfl

theorem append_entries_ok (log : List LogEntry) (es : List LogEntry)
    (hb : ∀ e ∈ es, sqliteBindable e.message = true) :
    append_entries log es = .ok (log ++ es.map storedEntry) := by
  induction es generalizing log with
  | nil => simp [append_entries]
  | cons e rest ih =>
      show (do
        let log2 ← append_log e.time e.operation e.command e.success e.message log
        append_entries log2 rest) = _
      rw [append_log_bindable e.time e.operation e.command e.success e.message log
          (hb e (List.mem_cons_self _ _)), exBindOk,
        ih _ (fun x hx => hb x (List.mem_cons_of_mem _ hx))]
      simp [storedEntry]

/-! ## Output parsers (main.py lines 476-514, 649-690, 714-731, 810-841) -/

/-- One record of `parse_list_output` (the dict appended at line 497). -/
structure ListApp where
  name : String
  version : String
  bucket : String
  updated : Option String
  held : Bool

/-- One iteration of the `parse_list_output` loop body on a raw line:
`none` when the line is skipped. -/
def listRow (rawLine : String) : Option ListApp :=
  let line := pyStrip rawLine
  if line == "" || pyStartsWith line "Installed" || pyStartsWith line "Name"
      || pyStartsWith line "-" then none
  else
    let parts := pySplitWs line
    if parts.length ≥ 2 then
      some { name := parts.getD 0 "", version := parts.getD 1 "",
             bucket := if parts.length > 2 then parts.getD 2 "" else "main",
             updated :=
               if parts.length > 3 then
                 if parts.length > 4 then some (parts.getD 3 "" ++ " " ++ parts.getD 4 "")
                 else some (parts.getD 3 "")
               else none,
             held := containsS line "Held" }
    else none

/-- `parse_list_output`: strip the whole text, split into lines, keep the
rows the loop appends. -/
def parse_list_output (s : String) : List ListApp :=
  (pyLines (pyStrip s)).filterMap listRow

/-- Python dict assignment `d[k] = v` on an insertion-ordered field list:
overwrite in place when the key exists, else append. -/
def pyDictInsert : List (String × String) → String → String → List (String × String)
  | [], k, v => [(k, v)]
  | (k0, v0) :: rest, k, v =>
      if k0 == k then (k0, v) :: rest else (k0, v0) :: pyDictInsert rest k v

/-- Python dict lookup `d[k]` on an insertion-ordered field list. -/
def pyLookup (d : List (String × String)) (k : String) : Option String :=
  (d.find? (fun p => p.1 == k)).map (fun p => p.2)

/-- The key/value one `parse_status_output` loop iteration contributes:
`none` when the row is skipped (blank, contains "WARN" or "Name", starts
with "-", contains case-insensitive "held") or has fewer than 3 tokens;
otherwise token 0 (name) and token 2 (latest version). -/
def statusRowKV (rawLine : String) : Option (String × String) :=
  let line := pyStrip rawLine
  if line == "" || containsS line "WARN" || containsS line "Name"
      || pyStartsWith line "-" || containsS (pyLower line) "held" then none
  else
    let parts := pySplitWs line
    if parts.length ≥ 3 then some (parts.getD 0 "", parts.getD 2 "") else none

/-- One iteration of the `parse_status_output` loop: `updates[name] = latest`. -/
def statusStep (acc : List (String × String)) (rawLine : String) : List (String × String) :=
  match statusRowKV rawLine with
  | none => acc
  | some (k, v) => pyDictInsert acc k v

/-- `parse_status_output`: fold the loop over the stripped text's lines,
starting from the empty dict. -/
def parse_status_output (s : String) : List (String × String) :=
  (pyLines (pyStrip s)).foldl statusStep []

/-- One record of the `get_buckets` parsing loop (main.py lines 714-731). -/
structure BucketRec where
  name : String
  source : String
  updated : Option String
  manifests : Option Int

/-- One iteration of the bucket-list parsing loop.  When a row has a 5th
token accepted by `isdigit`, `int()` is applied to it; `int` raises
ValueError on digit-type characters that are not decimal digits. -/
def bucketRow (rawLine : String) : Except PyErr (Option BucketRec) :=
  let line := pyStrip rawLine
  if line == "" || pyStartsWith line "Name" || pyStartsWith line "-" then .ok none
  else
    let parts := pySplitWs line
    if parts.length ≥ 2 then
      if parts.length ≥ 4 then
        if parts.length ≥ 5 && pyIsdigit (parts.getD 4 "") then
          match pyToInt (parts.getD 4 "") with
          | some n =>
              .ok (some { name := parts.getD 0 "", source := parts.getD 1 "",
                          updated := some (parts.getD 2 "" ++ " " ++ parts.getD 3 ""),
                          manifests := some n })
          | none => .error PyErr.valueErr
        else
          .ok (some { name := parts.getD 0 "", source := parts.getD 1 "",
                      updated := some (parts.getD 2 "" ++ " " ++ parts.getD 3 ""),
                      manifests := none })
      else
        .ok (some { name := parts.getD 0 "", source := parts.getD 1 "",
                    updated := none, manifests := none })
    else .ok none

/-- The bucket-list loop over a list of lines, propagating the first raised
exception like the Python loop does. -/
def bucketRows : List String → Except PyErr (List BucketRec)
  | [] => .ok []
  | l :: ls => do
      let r ← bucketRow l
      let rest ← bucketRows ls
      match r with
      | some b => pure (b :: rest)
      | none => pure rest

/-- Parsing of `scoop bucket list` output as the GET /api/buckets handler
performs it inline. -/
def parse_buckets_output (s : String) : Except PyErr (List BucketRec) :=
  bucketRows (pyLines (pyStrip s))

/-- One record of the search / version listings. -/
structure SearchRec where
  name : String
  version : String
  bucket : String

/-- Tabular `scoop search` output parsing as the GET /api/search handler
performs it inline (lines 830-839). -/
def parse_search_scoop (s : String) : List SearchRec :=
  (pyLines (pyStrip s)).filterMap (fun rawLine =>
    let line := pyStrip rawLine
    if line == "" || pyStartsWith line "Results" || pyStartsWith line "-"
        || pyStartsWith line "Name" then none
    else
      let parts := pySplitWs line
      if parts.length ≥ 3 then
        some { name := parts.getD 0 "", version := parts.getD 1 "", bucket := parts.getD 2 "" }
      else none)

/-- The regular expression match at line 824: one or more non-space
characters, one or more whitespace characters, then a parenthesised
non-empty group of characters other than the closing parenthesis. -/
def matchNameVer (line : String) : Option (String × String) :=
  let cs := line.toList
  let name := cs.takeWhile (fun c => !pyIsSpace c)
  if name.isEmpty then none
  else
    let rest := (cs.drop name.length)
    let sp := rest.takeWhile pyIsSpace
    if sp.isEmpty then none
    else
      match rest.drop sp.length with
      | c :: rest2 =>
          if c.val == 40 then
            let ver := rest2.takeWhile (fun d => d.val != 41)
            if ver.isEmpty then none
            else
              match rest2.drop ver.length with
              | d :: _ => if d.val == 41 then some (String.mk name, String.mk ver) else none
              | [] => none
          else none
      | [] => none

/-- Grouped `scoop-search` output parsing (lines 813-828): bucket
announcement lines carry a current-bucket state across the pass. -/
def parse_search_grouped (s : String) : List SearchRec :=
  ((pyLines (pyStrip s)).foldl (fun st rawLine =>
    let line := pyStrip rawLine
    if line == "" then st
    else if pyStartsWith line "\x27" && containsS (pyLower line) "bucket" then
      (if containsS line "\x27" then (pySplitChar line quoteChar).getD 1 "" else "unknown", st.2)
    else if pyStartsWith line "Results" then st
    else
      match matchNameVer line with
      | some (n, v) => (st.1, st.2 ++ [{ name := n, version := v, bucket := st.1 : SearchRec }])
      | none => st)
    ("unknown", ([] : List SearchRec))).2

/-! ## Command runner (run_scoop_command, main.py lines 458-473) -/

/-- An HTTPException as the runner raises it. -/
structure HttpErr where
  status : Nat
  detail : String

/-- How the spawned subprocess interaction ended: normal completion with
captured streams and return code, expiry of the `asyncio.wait_for` timeout,
or a spawn/other failure. -/
inductive ProcOutcome where
  | completed (stdout stderr : String) (returncode : Option Int)
  | timedOut
  | spawnError (msg : String)

/-- The single command-line string handed to the shell:
`powershell -NoProfile -Command "scoop {args}"` (line 460). -/
def scoopCommandLine (args : List String) : String :=
  "scoop " ++ String.intercalate " " args

/-- Python `proc.returncode or 0`. -/
def pyOrZero : Option Int → Int
  | none => 0
  | some n => if n == 0 then 0 else n

/-- `run_scoop_command`: the subprocess is abstracted by the `ProcOutcome`
argument (how the `scoopCommandLine args` invocation ended within
`timeout`); decoding with errors="ignore" is the identity on the modelled
strings. -/
def run_scoop_command (args : List String) (timeout : Nat) (outcome : ProcOutcome) :
    Except HttpErr (String × String × Int) :=
  let _ := (scoopCommandLine args, timeout)
  match outcome with
  | .completed out err rc => .ok (out, err, pyOrZero rc)
  | .timedOut => .error { status := 504, detail := "Command timed out" }
  | .spawnError m => .error { status := 500, detail := m }

/-- The argument list the install handler passes to the runner (main.py
lines 848-849): `name@version` when `request.version` is truthy, else `name`. -/
def install_command_args (name : String) (version : Option String) : List String :=
  ["install",
   match version with
   | some v => if v != "" then name ++ "@" ++ v else name
   | none => name]

/-! ## Operation classifier (OPERATION_MAP / get_operation_info, lines 170-255) -/

/-- The fixed (method, path) table; a `none` value marks the request as
deliberately not audited. -/
def OPERATION_MAP : List ((String × String) × Option (String × String)) :=
  [(("GET", "/api/apps"), some ("查询已安装应用", "scoop list")),
   (("GET", "/api/buckets"), some ("查询软件桶", "scoop bucket list")),
   (("GET", "/api/logs"), none),
   (("DELETE", "/api/logs"), none),
   (("GET", "/api/settings"), none),
   (("POST", "/api/settings"), none)]

/-- `path.split("/")[3]`: the dynamic segment of the matched path patterns
(the prefix tests guarantee the index exists, so the default is unreachable). -/
def pathPart3 (path : String) : String := (pySplitChar path slashChar).getD 3 ""

/-- `query_params.get(k, d)`. -/
def qGet (q : List (String × String)) (k d : String) : String :=
  ((q.find? (fun p => p.1 == k)).map (fun p => p.2)).getD d

/-- `k in query_params`. -/
def qHas (q : List (String × String)) (k : String) : Bool :=
  q.any (fun p => p.1 == k)

/-- `body.get(key, default)`: raises AttributeError when the decoded body is
not a mapping (the middleware hands the classifier whatever `json.loads`
produced). -/
def bodyGet (body : Json) (k : String) (d : Json) : Except PyErr Json :=
  match body with
  | .obj kvs => .ok ((pyLookupJ kvs k).getD d)
  | _ => .error PyErr.attrErr

/-- `body.get(key)` with the implicit `None` default. -/
def bodyGetOpt (body : Json) (k : String) : Except PyErr (Option Json) :=
  match body with
  | .obj kvs => .ok (pyLookupJ kvs k)
  | _ => .error PyErr.attrErr

/-- Truthiness of a `body.get(k)` result (`None` is falsy). -/
def pyTruthyOpt : Option Json → Bool
  | none => false
  | some j => pyTruthy j

/-- f-string interpolation of a `body.get(k)` result. -/
def pyStrOpt : Option Json → String
  | none => "None"
  | some j => pyStr j

/-- `" ".join(x)` on a decoded JSON value: joins a list of strings, the
characters of a string, or the keys of a mapping; any other value (or a
non-string list element) raises TypeError. -/
def pyJoinSpace : Json → Except PyErr String
  | .arr xs => do
      let parts ← xs.mapM (fun x =>
        match x with
        | Json.str s => Except.ok s
        | _ => Except.error PyErr.typeErr)
      pure (String.intercalate " " parts)
  | .str s => .ok (String.intercalate " " (s.toList.map (fun c => String.mk [c])))
  | .obj kvs => .ok (String.intercalate " " (kvs.map (fun p => p.1)))
  | _ => .error PyErr.typeErr

/-- `get_operation_info`: exact-table lookup first, then the method-specific
pattern branches in source order; `none` means the request is not audited. -/
def get_operation_info (method path : String) (query : List (String × String))
    (body : Json) : Except PyErr (Option (String × String)) :=
  match OPERATION_MAP.find? (fun e => e.1.1 == method && e.1.2 == path) with
  | some e => .ok e.2
  | none =>
    if method == "GET" then
      if pyStartsWith path "/api/apps/" && pyEndsWith path "/versions" then
        .ok (some ("查询版本", "scoop search " ++ pathPart3 path))
      else if pyStartsWith path "/api/apps/" && pyEndsWith path "/related" then
        .ok (some ("查询关联应用", "读取 " ++ pathPart3 path ++ " 的 manifest.json"))
      else if pyStartsWith path "/api/apps/" && pyEndsWith path "/info" then
        .ok (some ("查看信息", "读取 " ++ pathPart3 path ++ " 的 manifest.json"))
      else if path == "/api/search" && qHas query "q" then
        .ok (some ("搜索软件", "scoop search " ++ qGet query "q" ""))
      else .ok none
    else if method == "POST" then
      if path == "/api/apps/update" then do
        let apps ← bodyGet body "apps" (Json.arr [])
        let joined ← pyJoinSpace apps
        pure (some ("更新应用", "scoop update " ++ joined))
      else if path == "/api/apps/uninstall" then do
        let apps ← bodyGet body "apps" (Json.arr [])
        let joined ← pyJoinSpace apps
        pure (some ("卸载应用", "scoop uninstall " ++ joined))
      else if path == "/api/apps/install" then do
        let name := qGet query "name" ""
        let bucket ← bodyGet body "bucket" (Json.str "")
        pure (some ("安装应用",
          if pyTruthy bucket then "scoop install " ++ pyStr bucket ++ "/" ++ name
          else "scoop install " ++ name))
      else if path == "/api/buckets" then do
        let name ← bodyGet body "name" (Json.str "")
        let url ← bodyGet body "url" (Json.str "")
        pure (some ("添加软件桶",
          if pyTruthy url then pyStrip ("scoop bucket add " ++ pyStr name ++ " " ++ pyStr url)
          else "scoop bucket add " ++ pyStr name))
      else if path == "/api/apps/hold" then do
        let apps ← bodyGet body "apps" (Json.arr [])
        let joined ← pyJoinSpace apps
        pure (some ("锁定应用", "scoop hold " ++ joined))
      else if pyStartsWith path "/api/apps/" && pyEndsWith path "/hold" then
        .ok (some ("锁定应用", "scoop hold " ++ pathPart3 path))
      else if pyStartsWith path "/api/apps/" && pyEndsWith path "/reset" then do
        let version ← bodyGetOpt body "version"
        let targetApp ← bodyGetOpt body "target_app"
        if pyTruthyOpt targetApp then
          pure (some ("切换版本", "scoop reset " ++ pyStrOpt targetApp))
        else if pyTruthyOpt version then
          pure (some ("切换版本", "scoop reset " ++ pathPart3 path ++ "@" ++ pyStrOpt version))
        else pure none
      else .ok none
    else if method == "DELETE" then
      if path == "/api/apps/hold" then do
        let apps ← bodyGet body "apps" (Json.arr [])
        let joined ← pyJoinSpace apps
        pure (some ("解锁应用", "scoop unhold " ++ joined))
      else if pyStartsWith path "/api/apps/" && pyEndsWith path "/hold" then
        .ok (some ("解锁应用", "scoop unhold " ++ pathPart3 path))
      else if pyStartsWith path "/api/buckets/" then
        .ok (some ("移除软件桶", "scoop bucket rm " ++ pathPart3 path))
      else .ok none
    else .ok none

/-! ## Response message extraction (extract_scoop_output, lines 286-301) -/

/-- A response body: the bytes (decoded text) together with the result of
`json.loads` on them (`none` when parsing fails; `json.loads` itself is not
re-implemented). -/
structure PyBytes where
  raw : String
  js : Option Json

/-- Python `needle in data` for a decoded JSON value: key membership on a
mapping, element equality on a list, substring test on a string; TypeError
on the remaining (non-container, non-string) values. -/
def pyContainsStr (data : Json) (needle : String) : Except PyErr Bool :=
  match data with
  | .obj kvs => .ok (kvs.any (fun p => p.1 == needle))
  | .arr xs => .ok (xs.any (fun j => jsonEqStr j needle))
  | .str s => .ok (containsS s needle)
  | _ => .error PyErr.typeErr

/-- Python `data[key]` with a string key: field access on a mapping (KeyError
when absent — unreachable after a membership test); TypeError on lists,
strings and scalars. -/
def pyIndexStr (data : Json) (key : String) : Except PyErr Json :=
  match data with
  | .obj kvs =>
      match kvs.find? (fun p => p.1 == key) with
      | some p => .ok p.2
      | none => .error PyErr.keyErr
  | _ => .error PyErr.typeErr

/-- Python `x.get(key, default)`: AttributeError when `x` is not a mapping. -/
def pyGetD (x : Json) (key : String) (d : Json) : Except PyErr Json :=
  match x with
  | .obj kvs => .ok ((pyLookupJ kvs key).getD d)
  | _ => .error PyErr.attrErr

/-- `extract_scoop_output`: empty bytes give empty text; unparseable bytes
fall back to their decoded text; otherwise the duck-typed inspection of the
decoded value, which can raise on non-mapping values. -/
def extract_scoop_output (b : PyBytes) : Except PyErr Json :=
  if b.raw = "" then .ok (Json.str "")
  else
    match b.js with
    | none => .ok (Json.str b.raw)
    | some data => do
        if (← pyContainsStr data "message") then pyIndexStr data "message"
        else if (← pyContainsStr data "detail") then pyIndexStr data "detail"
        else if (← pyContainsStr data "results") then do
          let res ← pyIndexStr data "results"
          match res with
          | .arr (x :: _) => pyGetD x "message" (Json.str "")
          | _ => .ok (Json.str "")
        else .ok (Json.str "")

/-! ## Audit middleware (log_requests, lines 304-350) -/

/-- A drained handler response: status code, raw header pairs (starlette
headers are multi-valued), and the fully buffered body. -/
structure Response where
  status : Nat
  headers : List (String × String)
  body : PyBytes

/-- What the downstream handler produced: a response, or an exception that
propagated out of `call_next` (identified by its message). -/
inductive HandlerOutcome where
  | ok (r : Response)
  | exn (msg : String)

/-- Keep-first deduplication of header pairs by name. -/
def dedupeKeysAux (seen : List String) : List (String × String) → List (String × String)
  | [] => []
  | (k, v) :: rest =>
      if seen.contains k then dedupeKeysAux seen rest
      else (k, v) :: dedupeKeysAux (k :: seen) rest

/-- `dict(response.headers)`: iterating all keys and reading each through
`__getitem__` (which returns the first match) collapses duplicate header
names to their first occurrence. -/
def dictHeaders (hs : List (String × String)) : List (String × String) :=
  dedupeKeysAux [] hs

/-- The middleware's `except Exception as e` clause: append a failure entry
carrying str(e) (a string always binds) and re-raise the caught exception to
the caller; an exception from this second append itself (impossible for a
string message) would propagate. -/
def exceptClause (now op cmd : String) (e : PyErr) (log : List LogEntry) :
    Except PyErr (HandlerOutcome × List LogEntry) :=
  match append_log now op cmd false (Json.str (pyErrStr e)) log with
  | .ok log2 => .ok (.exn (pyErrStr e), log2)
  | .error e2 => .error e2

/-- The classified half of the middleware `try` block: a handler exception
is logged as a failure and re-raised; otherwise the drained response's
message is extracted (which may raise), the entry is inserted (which raises
sqlite3.ProgrammingError when the extracted message is a truthy list or
dict), and the response is rebuilt with the same status and bytes and
`dict`-collapsed headers; every exception inside the `try` runs the except
clause. -/
def logClassified (now op cmd : String) (h : HandlerOutcome) (log : List LogEntry) :
    Except PyErr (HandlerOutcome × List LogEntry) :=
  match h with
  | .exn m =>
      match append_log now op cmd false (Json.str m) log with
      | .ok log2 => .ok (.exn m, log2)
      | .error e2 => .error e2
  | .ok r =>
      match extract_scoop_output r.body with
      | .error e => exceptClause now op cmd e log
      | .ok msg =>
          match append_log now op cmd (decide (r.status < 400)) msg log with
          | .ok log2 =>
              .ok (.ok { status := r.status, headers := dictHeaders r.headers,
                         body := r.body }, log2)
          | .error e => exceptClause now op cmd e log

/-- `log_requests` after the request body has been buffered and decoded
(`body` is the `json.loads` result, `{}` when absent or unparseable):
classify — a classification error is raised outside the `try` and
propagates unlogged; unclassified requests pass through untouched;
classified ones run the `try`/`except` of `logClassified`. -/
def log_requests (now method path : String) (query : List (String × String))
    (body : Json) (h : HandlerOutcome) (log : List LogEntry) :
    Except PyErr (HandlerOutcome × List LogEntry) :=
  match get_operation_info method path query body with
  | .error e => .error e
  | .ok none => .ok (h, log)
  | .ok (some (op, cmd)) => logClassified now op cmd h log

/-! ## Helper lemmas -/

theorem pyLookup_insert_self (d : List (String × String)) (k v : String) :
    pyLookup (pyDictInsert d k v) k = some v := by
  induction d with
  | nil => simp [pyDictInsert, pyLookup]
  | cons p rest ih =>
      obtain ⟨k0, v0⟩ := p
      cases hbe : (k0 == k) with
      | true => simp [pyDictInsert, hbe, pyLookup]
      | false => simp [pyDictInsert, hbe, pyLookup, List.find?] at ih ⊢; exact ih

theorem pyLookup_insert_ne (d : List (String × String)) (k v k' : String)
    (h : k' ≠ k) : pyLookup (pyDictInsert d k v) k' = pyLookup d k' := by
  induction d with
  | nil => simp [pyDictInsert, pyLookup, List.find?, show (k == k') = false by
      simpa using fun he => h he.symm]
  | cons p rest ih =>
      obtain ⟨k0, v0⟩ := p
      cases hbe : (k0 == k) with
      | true =>
          have hk0 : k0 = k := by simpa using hbe
          have : (k0 == k') = false := by simp [hk0]; exact fun he => h he.symm
          simp [pyDictInsert, hbe, pyLookup, List.find?, this]
      | false =>
          cases hbe' : (k0 == k') with
          | true => simp [pyDictInsert, hbe, pyLookup, List.find?, hbe']
          | false => simp [pyDictInsert, hbe, pyLookup, List.find?, hbe'] at ih ⊢; exact ih

theorem mem_keys_insert (d : List (String × String)) (k v k' : String)
    (h : k' ∈ (pyDictInsert d k v).map Prod.fst) :
    k' ∈ d.map Prod.fst ∨ k' = k := by
  induction d with
  | nil =>
      simp [pyDictInsert] at h
      exact Or.inr h
  | cons p rest ih =>
      obtain ⟨k0, v0⟩ := p
      cases hbe : (k0 == k) with
      | true =>
          rw [show pyDictInsert ((k0, v0) :: rest) k v = (k0, v) :: rest from by
            simp [pyDictInsert, hbe]] at h
          simp only [List.map_cons, List.mem_cons] at h ⊢
          tauto
      | false =>
          rw [show pyDictInsert ((k0, v0) :: rest) k v = (k0, v0) :: pyDictInsert rest k v from by
            simp [pyDictInsert, hbe]] at h
          simp only [List.map_cons, List.mem_cons] at h ⊢
          rcases h with h | h
          · exact Or.inl (Or.inl h)
          · rcases ih h with h' | h'
            · exact Or.inl (Or.inr h')
            · exact Or.inr h'

theorem nodup_keys_insert (d : List (String × String)) (k v : String)
    (h : (d.map Prod.fst).Nodup) : ((pyDictInsert d k v).map Prod.fst).Nodup := by
  induction d with
  | nil => simp [pyDictInsert]
  | cons p rest ih =>
      obtain ⟨k0, v0⟩ := p
      simp only [List.map_cons, List.nodup_cons] at h
      cases hbe : (k0 == k) with
      | true =>
          rw [show pyDictInsert ((k0, v0) :: rest) k v = (k0, v) :: rest from by
            simp [pyDictInsert, hbe]]
          simp only [List.map_cons, List.nodup_cons]
          exact ⟨h.1, h.2⟩
      | false =>
          have hk0k : k0 ≠ k := by simpa using hbe
          rw [show pyDictInsert ((k0, v0) :: rest) k v = (k0, v0) :: pyDictInsert rest k v from by
            simp [pyDictInsert, hbe]]
          simp only [List.map_cons, List.nodup_cons]
          refine ⟨?_, ih h.2⟩
          intro hmem
          rcases mem_keys_insert rest k v k0 hmem with h' | h'
          · exact h.1 h'
          · exact hk0k h'

theorem statusStep_lookup_of_ne (acc : List (String × String)) (l k : String)
    (h : ∀ kv, statusRowKV l = some kv → kv.1 ≠ k) :
    pyLookup (statusStep acc l) k = pyLookup acc k := by
  unfold statusStep
  cases hkv : statusRowKV l with
  | none => rfl
  | some kv =>
      obtain ⟨k0, v0⟩ := kv
      exact pyLookup_insert_ne acc k0 v0 k (fun he => h (k0, v0) hkv he.symm)

theorem foldl_statusStep_lookup (ls : List String) (acc : List (String × String)) (k : String)
    (h : ∀ l ∈ ls, ∀ kv, statusRowKV l = some kv → kv.1 ≠ k) :
    pyLookup (ls.foldl statusStep acc) k = pyLookup acc k := by
  induction ls generalizing acc with
  | nil => rfl
  | cons l ls ih =>
      rw [List.foldl_cons, ih _ (fun l' hl' => h l' (List.mem_cons_of_mem _ hl'))]
      exact statusStep_lookup_of_ne acc l k (h l (List.mem_cons_self _ _))

theorem foldl_statusStep_nodup (ls : List String) (acc : List (String × String))
    (h : (acc.map Prod.fst).Nodup) :
    ((ls.foldl statusStep acc).map Prod.fst).Nodup := by
  induction ls generalizing acc with
  | nil => exact h
  | cons l ls ih =>
      rw [List.foldl_cons]
      refine ih _ ?_
      unfold statusStep
      cases hkv : statusRowKV l with
      | none => exact h
      | some kv => exact nodup_keys_insert acc kv.1 kv.2 h

theorem dedupeKeysAux_eq_self (hs : List (String × String)) (seen : List String)
    (hnd : (hs.map Prod.fst).Nodup) (hseen : ∀ p ∈ hs, seen.contains p.1 = false) :
    dedupeKeysAux seen hs = hs := by
  induction hs generalizing seen with
  | nil => rfl
  | cons p rest ih =>
      obtain ⟨k, v⟩ := p
      simp only [List.map_cons, List.nodup_cons] at hnd
      have hk : seen.contains k = false := hseen (k, v) (List.mem_cons_self _ _)
      unfold dedupeKeysAux
      rw [hk]
      simp only [Bool.false_eq_true, if_false]
      congr 1
      refine ih (k :: seen) hnd.2 ?_
      intro q hq
      have hq1 : (q.1 == k) = false := by
        have : q.1 ≠ k := fun he => hnd.1 (he ▸ List.mem_map_of_mem Prod.fst hq)
        simpa using this
      have hq2 : seen.contains q.1 = false := hseen q (List.mem_cons_of_mem _ hq)
      simp only [List.contains_cons, Bool.or_eq_false_iff]
      simp at hq2
      exact ⟨hq1, by simpa using hq2⟩

theorem dictHeaders_eq_self (hs : List (String × String))
    (hnd : (hs.map Prod.fst).Nodup) : dictHeaders hs = hs :=
  dedupeKeysAux_eq_self hs [] hnd (fun _ _ => rfl)

/-! ## Claim theorems -/

/-- C1: the parsers are claimed total, but the bucket-list parsing loop is
not: on a row whose fifth whitespace token is the superscript digit U+00B2
— accepted by the `isdigit` guard yet rejected by `int()` — the loop raises
ValueError instead of returning records.  The second conjunct shows the same
loop succeeding on an ordinary decimal fifth token. -/
theorem c1_bucket_parser_not_total :
    parse_buckets_output "extras https://github.com/ScoopInstaller/Extras 2023-01-01 10:00 ²"
      = .error PyErr.valueErr
    ∧ parse_buckets_output "main https://github.com/ScoopInstaller/Main 2023-01-01 10:00 1000"
      = .ok [{ name := "main", source := "https://github.com/ScoopInstaller/Main",
               updated := some "2023-01-01 10:00", manifests := some 1000 }] :=
  ⟨rfl, rfl⟩

/-- C2: appending N entries whose messages the driver can bind succeeds and,
read back with a natural limit M, returns the stored entries reversed and
truncated to M — that is, min(N, M) entries, most recent first, ordered by
insertion order (the timestamps are arbitrary strings and play no role);
reading after a clear yields the empty sequence for every limit.  (A truthy
list- or dict-valued message would abort the append with
sqlite3.ProgrammingError — see the audit-middleware claims — hence the
bindability hypothesis.) -/
theorem c2_audit_log_round_trip (es : List LogEntry) (M : Nat)
    (s : List LogEntry) (lim : Int) :
    ((∀ e ∈ es, sqliteBindable e.message = true) →
      append_entries [] es = .ok (es.map storedEntry)
      ∧ read_logs (Int.ofNat M) (es.map storedEntry) = (es.map storedEntry).reverse.take M
      ∧ (read_logs (Int.ofNat M) (es.map storedEntry)).length = min es.length M)
    ∧ read_logs lim (clear_logs s) = [] := by
  have hnotneg : ¬ (Int.ofNat M < 0) := by
    simp
  have htn : (Int.ofNat M).toNat = M := rfl
  refine ⟨fun hb => ⟨?_, ?_, ?_⟩, ?_⟩
  · rw [append_entries_ok [] es hb, List.nil_append]
  · rw [read_logs, if_neg hnotneg, htn]
  · rw [read_logs, if_neg hnotneg, htn,
      List.length_take, List.length_reverse, List.length_map, Nat.min_comm]
  · unfold clear_logs read_logs
    simp

/-- A sample stored log row (string message, hence bindable) used by
concrete witnesses. -/
def sampleEntry : LogEntry :=
  { time := "t", operation := "o", command := "c", success := true, message := Json.str "m" }

/-- C2 witness: one bindable entry, limit 1, and a clear-then-read at
limit 7. -/
theorem c2_audit_log_round_trip_witness :
    (append_entries [] [sampleEntry] = .ok ([sampleEntry].map storedEntry)
     ∧ read_logs (Int.ofNat 1) ([sampleEntry].map storedEntry)
        = ([sampleEntry].map storedEntry).reverse.take 1)
    ∧ read_logs 7 (clear_logs [sampleEntry]) = [] :=
  ⟨⟨((c2_audit_log_round_trip [sampleEntry] 1 [sampleEntry] 7).1 (by decide)).1,
    ((c2_audit_log_round_trip [sampleEntry] 1 [sampleEntry] 7).1 (by decide)).2.1⟩,
   (c2_audit_log_round_trip [sampleEntry] 1 [sampleEntry] 7).2⟩

/-- C6: whenever the spawned command completes before the timeout, the runner
returns the captured standard output, standard error and exit code without
raising — for every exit code, including non-zero ones; only the timeout and
spawn-failure outcomes produce runner-level errors. -/
theorem c6_runner_completion_no_raise (args : List String) (timeout : Nat)
    (out err : String) (rc : Option Int) :
    run_scoop_command args timeout (.completed out err rc) = .ok (out, err, pyOrZero rc) :=
  rfl

/-- C8: the three-line example — header, separator, and a data row — parses
to exactly one record with name git, version 2.44.0, bucket main,
updated "2024-01-02 10:00", and held = false. -/
theorem c8_list_parse_example :
    parse_list_output
        "Name    Version   Source   Updated\n---     -------   ------   -------\ngit     2.44.0    main     2024-01-02 10:00"
      = [{ name := "git", version := "2.44.0", bucket := "main",
           updated := some "2024-01-02 10:00", held := false }] :=
  rfl

/-- C10: a log read with limit 0 returns the empty sequence; a read with any
negative limit returns every stored entry, most recent first (SQLite treats
a negative LIMIT as unbounded and the GET /api/logs endpoint forwards its
limit parameter unchecked), so limit = -1 on the endpoint yields the full
log of successfully appended (bindable-message) entries. -/
theorem c10_log_read_limits (s : List LogEntry) (m : Int) (es : List LogEntry) :
    get_logs 0 s = []
    ∧ (m < 0 → get_logs m s = s.reverse)
    ∧ ((∀ e ∈ es, sqliteBindable e.message = true) →
        append_entries [] es = .ok (es.map storedEntry)
        ∧ get_logs (-1) (es.map storedEntry) = (es.map storedEntry).reverse) := by
  refine ⟨?_, ?_, fun hb => ⟨?_, ?_⟩⟩
  · unfold get_logs read_logs
    simp
  · intro hm
    unfold get_logs read_logs
    rw [if_pos hm]
  · rw [append_entries_ok [] es hb, List.nil_append]
  · unfold get_logs read_logs
    rw [if_pos (by decide)]

/-- C10 witness: the general theorem applied at limit -1 and a one-entry log. -/
theorem c10_log_read_limits_witness :
    get_logs 0 [sampleEntry] = [] ∧ get_logs (-1) [sampleEntry] = [sampleEntry]
    ∧ append_entries [] [sampleEntry] = .ok ([sampleEntry].map storedEntry)
    ∧ get_logs (-1) ([sampleEntry].map storedEntry) = ([sampleEntry].map storedEntry).reverse :=
  ⟨(c10_log_read_limits [sampleEntry] (-1) []).1,
   (c10_log_read_limits [sampleEntry] (-1) []).2.1 (by decide),
   ((c10_log_read_limits [sampleEntry] (-1) [sampleEntry]).2.2 (by decide)).1,
   ((c10_log_read_limits [sampleEntry] (-1) [sampleEntry]).2.2 (by decide)).2⟩

theorem exceptClause_eq (now op cmd : String) (e : PyErr) (log : List LogEntry) :
    exceptClause now op cmd e log
      = .ok (.exn (pyErrStr e),
             log ++ [{ time := now, operation := op, command := cmd, success := false,
                       message := Json.str (pyErrStr e) }]) := by
  unfold exceptClause
  rw [append_log_str]

/-- C4: for every classified request whose handler raises before producing a
response, the middleware appends exactly one entry — success = false, message
the exception text — and re-raises the same exception to the caller. -/
theorem c4_handler_exception_logged (now method path : String)
    (query : List (String × String)) (body : Json) (op cmd e : String)
    (log : List LogEntry)
    (hcls : get_operation_info method path query body = .ok (some (op, cmd))) :
    log_requests now method path query body (.exn e) log
      = .ok (.exn e, log ++ [{ time := now, operation := op, command := cmd,
                               success := false, message := Json.str e }]) := by
  unfold log_requests
  rw [hcls]
  show (match append_log now op cmd false (Json.str e) log with
    | .ok log2 => Except.ok (HandlerOutcome.exn e, log2)
    | .error e2 => Except.error e2) = _
  rw [append_log_str]

/-- C4 witness: a classified request (GET /api/apps) whose handler raised
"boom". -/
theorem c4_handler_exception_logged_witness :
    log_requests "t" "GET" "/api/apps" [] (Json.obj []) (.exn "boom") []
      = .ok (.exn "boom",
             [{ time := "t", operation := "查询已安装应用", command := "scoop list",
                success := false, message := Json.str "boom" }]) :=
  c4_handler_exception_logged "t" "GET" "/api/apps" [] (Json.obj [])
    "查询已安装应用" "scoop list" "boom" [] rfl

/-- C3 counterexample: on a classified request whose handler response carries
two Set-Cookie headers, the middleware returns a response whose header list
dropped the second one — the headers observed by the caller differ from the
handler's. -/
theorem c3_duplicate_headers_counterexample :
    log_requests "t" "GET" "/api/apps" [] (Json.obj [])
        (.ok { status := 200,
               headers := [("set-cookie", "a=1"), ("set-cookie", "b=2")],
               body := { raw := "[]", js := some (Json.arr []) } }) []
      = .ok (.ok { status := 200, headers := [("set-cookie", "a=1")],
                   body := { raw := "[]", js := some (Json.arr []) } },
             [{ time := "t", operation := "查询已安装应用", command := "scoop list",
                success := true, message := Json.str "" }])
    ∧ ([("set-cookie", "a=1")] : List (String × String))
        ≠ [("set-cookie", "a=1"), ("set-cookie", "b=2")] :=
  ⟨rfl, by decide⟩

/-- C3 amended: an unclassified request's outcome is returned untouched with
no log side effect.  A classified request whose message extraction succeeds
with a value the log insert can bind (a string or other scalar — every
normal handler body) is rebuilt with the same status code and byte-identical
body and with `dict`-collapsed headers — identical to the original headers
whenever no header name repeats.  When the extracted message is a truthy
list or dict (e.g. a 422 validation body whose "detail" is a list), the
insert raises sqlite3.ProgrammingError inside the `try`: the middleware
appends a failure entry instead and propagates that exception, and the
caller never receives the handler's response. -/
theorem c3_response_preservation_amended :
    (∀ (now method path : String) (query : List (String × String)) (body : Json)
       (h : HandlerOutcome) (log : List LogEntry),
      get_operation_info method path query body = .ok none →
      log_requests now method path query body h log = .ok (h, log))
    ∧ (∀ (now method path : String) (query : List (String × String)) (body : Json)
         (op cmd : String) (r : Response) (msg : Json) (log : List LogEntry),
      get_operation_info method path query body = .ok (some (op, cmd)) →
      extract_scoop_output r.body = .ok msg →
      sqliteBindable msg = true →
      log_requests now method path query body (.ok r) log
        = .ok (.ok { status := r.status, headers := dictHeaders r.headers, body := r.body },
               log ++ [{ time := now, operation := op, command := cmd,
                         success := decide (r.status < 400),
                         message := sqliteTextOf
                           (if pyTruthy msg then msg else Json.str "") }])
      ∧ ((r.headers.map Prod.fst).Nodup → dictHeaders r.headers = r.headers))
    ∧ (∀ (now method path : String) (query : List (String × String)) (body : Json)
         (op cmd : String) (r : Response) (msg : Json) (log : List LogEntry),
      get_operation_info method path query body = .ok (some (op, cmd)) →
      extract_scoop_output r.body = .ok msg →
      sqliteBindable msg = false →
      log_requests now method path query body (.ok r) log
        = .ok (.exn "ProgrammingError",
               log ++ [{ time := now, operation := op, command := cmd, success := false,
                         message := Json.str "ProgrammingError" }])) := by
  refine ⟨?_, ?_, ?_⟩
  · intro now method path query body h log hcls
    unfold log_requests
    rw [hcls]
  · intro now method path query body op cmd r msg log hcls hex hb
    refine ⟨?_, fun hnd => dictHeaders_eq_self r.headers hnd⟩
    unfold log_requests
    rw [hcls]
    show (match extract_scoop_output r.body with
      | .error e => exceptClause now op cmd e log
      | .ok m =>
          match append_log now op cmd (decide (r.status < 400)) m log with
          | .ok log2 =>
              Except.ok (HandlerOutcome.ok
                { status := r.status, headers := dictHeaders r.headers, body := r.body },
                log2)
          | .error e => exceptClause now op cmd e log) = _
    rw [hex]
    show (match append_log now op cmd (decide (r.status < 400)) msg log with
      | .ok log2 =>
          Except.ok (HandlerOutcome.ok
            { status := r.status, headers := dictHeaders r.headers, body := r.body },
            log2)
      | .error e => exceptClause now op cmd e log) = _
    rw [append_log_bindable now op cmd (decide (r.status < 400)) msg log hb]
  · intro now method path query body op cmd r msg log hcls hex hb
    unfold log_requests
    rw [hcls]
    show (match extract_scoop_output r.body with
      | .error e => exceptClause now op cmd e log
      | .ok m =>
          match append_log now op cmd (decide (r.status < 400)) m log with
          | .ok log2 =>
              Except.ok (HandlerOutcome.ok
                { status := r.status, headers := dictHeaders r.headers, body := r.body },
                log2)
          | .error e => exceptClause now op cmd e log) = _
    rw [hex]
    show (match append_log now op cmd (decide (r.status < 400)) msg log with
      | .ok log2 =>
          Except.ok (HandlerOutcome.ok
            { status := r.status, headers := dictHeaders r.headers, body := r.body },
            log2)
      | .error e => exceptClause now op cmd e log) = _
    rw [append_log_not_bindable now op cmd (decide (r.status < 400)) msg log hb]
    show exceptClause now op cmd PyErr.progErr log = _
    rw [exceptClause_eq]
    rfl

/-- A sample response with a single header, used by concrete witnesses. -/
def sampleResp : Response :=
  { status := 200, headers := [("content-type", "application/json")],
    body := { raw := "[]", js := some (Json.arr []) } }

/-- A 422 validation response whose body has a list-valued "detail" field —
the shape FastAPI produces when a classified request fails request
validation; its extracted message is a list the log insert cannot bind. -/
def sampleResp422 : Response :=
  { status := 422, headers := [("content-type", "application/json")],
    body := { raw := "\x7b\"detail\": [\"invalid\"]\x7d",
              js := some (Json.obj [("detail", Json.arr [Json.str "invalid"])]) } }

/-- C3 amended witness: the unclassified part at GET /api/logs, the
classified bindable part at GET /api/apps on a duplicate-free response, and
the binding-failure part on a 422 list-detail body. -/
theorem c3_response_preservation_amended_witness :
    log_requests "t" "GET" "/api/logs" [] (Json.obj []) (.ok sampleResp) []
      = .ok (.ok sampleResp, [])
    ∧ log_requests "t" "GET" "/api/apps" [] (Json.obj []) (.ok sampleResp) []
      = .ok (.ok { status := 200, headers := [("content-type", "application/json")],
                   body := sampleResp.body },
             [{ time := "t", operation := "查询已安装应用", command := "scoop list",
                success := true, message := Json.str "" }])
    ∧ dictHeaders sampleResp.headers = sampleResp.headers
    ∧ log_requests "t" "GET" "/api/apps" [] (Json.obj []) (.ok sampleResp422) []
      = .ok (.exn "ProgrammingError",
             [{ time := "t", operation := "查询已安装应用", command := "scoop list",
                success := false, message := Json.str "ProgrammingError" }]) :=
  ⟨c3_response_preservation_amended.1 "t" "GET" "/api/logs" [] (Json.obj [])
      (.ok sampleResp) [] rfl,
   (c3_response_preservation_amended.2.1 "t" "GET" "/api/apps" [] (Json.obj [])
      "查询已安装应用" "scoop list" sampleResp (Json.str "") [] rfl rfl rfl).1,
   (c3_response_preservation_amended.2.1 "t" "GET" "/api/apps" [] (Json.obj [])
      "查询已安装应用" "scoop list" sampleResp (Json.str "") [] rfl rfl rfl).2 (by decide),
   c3_response_preservation_amended.2.2 "t" "GET" "/api/apps" [] (Json.obj [])
      "查询已安装应用" "scoop list" sampleResp422 (Json.arr [Json.str "invalid"]) []
      rfl rfl rfl⟩

/-- C7: for any status output in which some line qualifies (non-blank after
stripping, no "WARN", no "Name", not dash-led, no case-insensitive "held",
at least 3 tokens — packaged as `statusRowKV line = some (k, v)` with
k = token 0 and v = token 2) and no later line contributes the same name,
the resulting mapping sends k to v; and its keys are duplicate-free, so the
entry is unique — the latest-occurring row wins. -/
theorem c7_status_parsing_last_wins (s : String) (pre post : List String)
    (line k v : String)
    (hsplit : pyLines (pyStrip s) = pre ++ line :: post)
    (hrow : statusRowKV line = some (k, v))
    (hpost : ∀ l ∈ post, ∀ kv, statusRowKV l = some kv → kv.1 ≠ k) :
    pyLookup (parse_status_output s) k = some v
    ∧ ((parse_status_output s).map Prod.fst).Nodup := by
  constructor
  · unfold parse_status_output
    rw [hsplit, List.foldl_append, List.foldl_cons]
    rw [foldl_statusStep_lookup post _ k hpost]
    unfold statusStep
    rw [hrow]
    exact pyLookup_insert_self _ k v
  · unfold parse_status_output
    exact foldl_statusStep_nodup _ [] (by simp)

/-- C7 witness: two qualifying rows both naming "foo"; the mapping holds the
later row's latest version 3.0 and exactly one "foo" entry. -/
theorem c7_status_parsing_last_wins_witness :
    pyLookup (parse_status_output "foo 1.0 2.0\nfoo 1.0 3.0") "foo" = some "3.0"
    ∧ ((parse_status_output "foo 1.0 2.0\nfoo 1.0 3.0").map Prod.fst).Nodup :=
  c7_status_parsing_last_wins "foo 1.0 2.0\nfoo 1.0 3.0" ["foo 1.0 2.0"] []
    "foo 1.0 3.0" "foo" "3.0" rfl rfl (by simp)

/-- Key membership in a field list agrees with lookup success. -/
theorem any_key_eq_isSome (kvs : List (String × Json)) (k : String) :
    kvs.any (fun p => p.1 == k) = (pyLookupJ kvs k).isSome := by
  induction kvs with
  | nil => rfl
  | cons p rest ih =>
      cases hbe : (p.1 == k) with
      | true => simp [pyLookupJ, List.find?_cons, hbe]
      | false =>
          simp only [List.any_cons, hbe, Bool.false_or]
          rw [ih]
          simp [pyLookupJ, List.find?_cons, hbe]

/-- The message-extraction order exactly as the specification claim words it:
a "message" field of the structured body, else a "detail" field, else — when
the body is a list of records — the first record's "message" sub-field, else
empty text; unparseable bodies fall back to their raw text.  This definition
follows the claim, for comparison against the source's
`extract_scoop_output`. -/
def extract_message_spec (b : PyBytes) : Json :=
  if b.raw = "" then Json.str ""
  else
    match b.js with
    | none => Json.str b.raw
    | some (Json.obj kvs) =>
        match pyLookupJ kvs "message" with
        | some v => v
        | none =>
            match pyLookupJ kvs "detail" with
            | some v => v
            | none => Json.str ""
    | some (Json.arr (x :: _)) =>
        match x with
        | Json.obj k2 => (pyLookupJ k2 "message").getD (Json.str "")
        | _ => Json.str ""
    | some _ => Json.str ""

/-- What the source's extraction computes on a mapping body: "message"
field, else "detail" field, else the "message" sub-field of the first
element of a non-empty "results" list, else empty text. -/
def extract_fixed_obj (kvs : List (String × Json)) : Json :=
  match pyLookupJ kvs "message" with
  | some v => v
  | none =>
      match pyLookupJ kvs "detail" with
      | some v => v
      | none =>
          match pyLookupJ kvs "results" with
          | some (Json.arr (x :: _)) =>
              (match x with
               | Json.obj k2 => (pyLookupJ k2 "message").getD (Json.str "")
               | _ => Json.str "")
          | _ => Json.str ""

/-- C5 counterexample: a body that is itself a list of records whose first
record carries "message": the claimed order would extract "hi", but the code
checks for a "results" key on a mapping and never inspects list bodies, so
it returns empty text. -/
theorem c5_extraction_order_counterexample :
    extract_scoop_output { raw := "[\x7b\"message\": \"hi\"\x7d]",
                           js := some (Json.arr [Json.obj [("message", Json.str "hi")]]) }
      = .ok (Json.str "")
    ∧ extract_message_spec { raw := "[\x7b\"message\": \"hi\"\x7d]",
                             js := some (Json.arr [Json.obj [("message", Json.str "hi")]]) }
      = Json.str "hi"
    ∧ Json.str "" ≠ Json.str "hi" :=
  ⟨rfl, rfl, fun h => absurd (Json.str.inj h) (by decide)⟩

/-- C5 amended: the extraction order holds with the third branch corrected
to "a 'results' key of a mapping body holding a non-empty list" — mapping
bodies follow message → detail → results-first-element → empty (provided a
non-empty results list starts with a mapping; otherwise the code raises);
list bodies that do not literally contain the strings "message", "detail" or
"results" yield empty text (the code never treats them as record lists);
unparseable non-empty bodies yield their raw text; empty bodies empty text. -/
theorem c5_extraction_order_amended :
    (∀ (b : PyBytes) (kvs : List (String × Json)),
      b.raw ≠ "" → b.js = some (Json.obj kvs) →
      (∀ x xs, pyLookupJ kvs "results" = some (Json.arr (x :: xs)) → ∃ k2, x = Json.obj k2) →
      extract_scoop_output b = .ok (extract_fixed_obj kvs))
    ∧ (∀ (b : PyBytes) (xs : List Json),
      b.raw ≠ "" → b.js = some (Json.arr xs) →
      (∀ j ∈ xs, jsonEqStr j "message" = false ∧ jsonEqStr j "detail" = false
        ∧ jsonEqStr j "results" = false) →
      extract_scoop_output b = .ok (Json.str ""))
    ∧ (∀ b : PyBytes, b.raw ≠ "" → b.js = none →
      extract_scoop_output b = .ok (Json.str b.raw))
    ∧ (∀ b : PyBytes, b.raw = "" → extract_scoop_output b = .ok (Json.str "")) := by
  refine ⟨?_, ?_, ?_, ?_⟩
  · intro b kvs hraw hjs hwf
    obtain ⟨raw, js⟩ := b
    simp only at hraw hjs
    subst hjs
    unfold extract_scoop_output
    rw [if_neg hraw]
    show (do
      if (← pyContainsStr (Json.obj kvs) "message") then pyIndexStr (Json.obj kvs) "message"
      else if (← pyContainsStr (Json.obj kvs) "detail") then pyIndexStr (Json.obj kvs) "detail"
      else if (← pyContainsStr (Json.obj kvs) "results") then do
        let res ← pyIndexStr (Json.obj kvs) "results"
        match res with
        | .arr (x :: _) => pyGetD x "message" (Json.str "")
        | _ => .ok (Json.str "")
      else .ok (Json.str "")) = .ok (extract_fixed_obj kvs)
    unfold extract_fixed_obj
    cases hm : kvs.find? (fun p => p.1 == "message") with
    | some pm =>
        have hc : pyContainsStr (Json.obj kvs) "message" = .ok true := by
          simp [pyContainsStr, any_key_eq_isSome, pyLookupJ, hm]
        rw [show pyLookupJ kvs "message" = some pm.2 by simp [pyLookupJ, hm], hc, exBindOk,
          if_pos rfl]
        simp [pyIndexStr, hm]
    | none =>
        have hc : pyContainsStr (Json.obj kvs) "message" = .ok false := by
          simp [pyContainsStr, any_key_eq_isSome, pyLookupJ, hm]
        rw [show pyLookupJ kvs "message" = none by simp [pyLookupJ, hm], hc, exBindOk,
          if_neg (by simp)]
        cases hd : kvs.find? (fun p => p.1 == "detail") with
        | some pd =>
            have hc2 : pyContainsStr (Json.obj kvs) "detail" = .ok true := by
              simp [pyContainsStr, any_key_eq_isSome, pyLookupJ, hd]
            rw [show pyLookupJ kvs "detail" = some pd.2 by simp [pyLookupJ, hd], hc2, exBindOk,
              if_pos rfl]
            simp [pyIndexStr, hd]
        | none =>
            have hc2 : pyContainsStr (Json.obj kvs) "detail" = .ok false := by
              simp [pyContainsStr, any_key_eq_isSome, pyLookupJ, hd]
            rw [show pyLookupJ kvs "detail" = none by simp [pyLookupJ, hd], hc2, exBindOk,
              if_neg (by simp)]
            cases hr : kvs.find? (fun p => p.1 == "results") with
            | some pr =>
                have hc3 : pyContainsStr (Json.obj kvs) "results" = .ok true := by
                  simp [pyContainsStr, any_key_eq_isSome, pyLookupJ, hr]
                rw [show pyLookupJ kvs "results" = some pr.2 by simp [pyLookupJ, hr], hc3,
                  exBindOk, if_pos rfl]
                rw [show pyIndexStr (Json.obj kvs) "results" = .ok pr.2 by
                  simp [pyIndexStr, hr], exBindOk]
                cases hv : pr.2 with
                | arr ys =>
                    cases ys with
                    | nil => rfl
                    | cons x rest =>
                        obtain ⟨k2, hk2⟩ := hwf x rest (by simp [pyLookupJ, hr, hv])
                        subst hk2
                        simp [pyGetD]
                | null => rfl
                | bool bb => rfl
                | num n => rfl
                | str s => rfl
                | obj o => rfl
            | none =>
                have hc3 : pyContainsStr (Json.obj kvs) "results" = .ok false := by
                  simp [pyContainsStr, any_key_eq_isSome, pyLookupJ, hr]
                rw [show pyLookupJ kvs "results" = none by simp [pyLookupJ, hr], hc3,
                  exBindOk, if_neg (by simp)]
  · intro b xs hraw hjs hno
    obtain ⟨raw, js⟩ := b
    simp only at hraw hjs
    subst hjs
    unfold extract_scoop_output
    rw [if_neg hraw]
    have hany : ∀ needle : String,
        (∀ j ∈ xs, jsonEqStr j needle = false) →
        pyContainsStr (Json.arr xs) needle = .ok false := by
      intro needle hn
      simp only [pyContainsStr]
      congr 1
      rw [List.any_eq_false]
      intro j hj
      simp [hn j hj]
    show (do
      if (← pyContainsStr (Json.arr xs) "message") then pyIndexStr (Json.arr xs) "message"
      else if (← pyContainsStr (Json.arr xs) "detail") then pyIndexStr (Json.arr xs) "detail"
      else if (← pyContainsStr (Json.arr xs) "results") then do
        let res ← pyIndexStr (Json.arr xs) "results"
        match res with
        | .arr (x :: _) => pyGetD x "message" (Json.str "")
        | _ => .ok (Json.str "")
      else .ok (Json.str "")) = .ok (Json.str "")
    rw [hany "message" (fun j hj => (hno j hj).1), exBindOk, if_neg (by simp),
      hany "detail" (fun j hj => (hno j hj).2.1), exBindOk, if_neg (by simp),
      hany "results" (fun j hj => (hno j hj).2.2), exBindOk, if_neg (by simp)]
  · intro b hraw hjs
    obtain ⟨raw, js⟩ := b
    simp only at hraw hjs
    subst hjs
    unfold extract_scoop_output
    rw [if_neg hraw]
  · intro b hraw
    obtain ⟨raw, js⟩ := b
    simp only at hraw
    subst hraw
    rfl

/-- C5 amended witness: the mapping branch on a detail-only body, the list
branch on a list of plain strings, the unparseable fallback, and the empty
body. -/
theorem c5_extraction_order_amended_witness :
    extract_scoop_output { raw := "\x7b\"detail\": \"oops\"\x7d",
                           js := some (Json.obj [("detail", Json.str "oops")]) }
      = .ok (Json.str "oops")
    ∧ extract_scoop_output { raw := "[\"a\"]", js := some (Json.arr [Json.str "a"]) }
      = .ok (Json.str "")
    ∧ extract_scoop_output { raw := "plain text", js := none } = .ok (Json.str "plain text")
    ∧ extract_scoop_output { raw := "", js := none } = .ok (Json.str "") :=
  ⟨c5_extraction_order_amended.1
      { raw := "\x7b\"detail\": \"oops\"\x7d",
        js := some (Json.obj [("detail", Json.str "oops")]) }
      [("detail", Json.str "oops")] (by decide) rfl (fun x xs h => nomatch h),
   c5_extraction_order_amended.2.1
      { raw := "[\"a\"]", js := some (Json.arr [Json.str "a"]) }
      [Json.str "a"] (by decide) rfl (by decide),
   c5_extraction_order_amended.2.2.1
      { raw := "plain text", js := none } (by decide) rfl,
   c5_extraction_order_amended.2.2.2 { raw := "", js := none } rfl⟩

/-- The command text the classifier reconstructs for POST /api/apps/install:
name from the query string, optional truthy "bucket" field from the body;
the body's "version" field is never consulted. -/
def classifier_install_cmd (q : List (String × String))
    (kvs : List (String × Json)) : String :=
  let name := qGet q "name" ""
  let bucket := (pyLookupJ kvs "bucket").getD (Json.str "")
  if pyTruthy bucket then "scoop install " ++ pyStr bucket ++ "/" ++ name
  else "scoop install " ++ name

/-- C9 counterexample: a POST install request carrying an explicit version —
the classifier reconstructs "scoop install git", but the runner issues
"scoop install git@2.40.0"; the reconstructed text does not incorporate the
version and does not match the issued command. -/
theorem c9_install_classifier_counterexample :
    get_operation_info "POST" "/api/apps/install" [("name", "git")]
        (Json.obj [("version", Json.str "2.40.0")])
      = .ok (some ("安装应用", "scoop install git"))
    ∧ scoopCommandLine (install_command_args "git" (some "2.40.0"))
      = "scoop install git@2.40.0"
    ∧ ("scoop install git" : String) ≠ "scoop install git@2.40.0" :=
  ⟨rfl, rfl, by decide⟩

/-- C9 amended: for every query and mapping body, the install classification
is the label 安装应用 with command text built from the query's name and the
body's optional bucket only; in particular adding a "version" field to the
body leaves the classification unchanged, even though the runner's actual
command appends @version. -/
theorem c9_install_classifier_amended (q : List (String × String))
    (kvs : List (String × Json)) (ver : Json) :
    get_operation_info "POST" "/api/apps/install" q (Json.obj kvs)
      = .ok (some ("安装应用", classifier_install_cmd q kvs))
    ∧ get_operation_info "POST" "/api/apps/install" q (Json.obj (("version", ver) :: kvs))
      = get_operation_info "POST" "/api/apps/install" q (Json.obj kvs) :=
  ⟨rfl, rfl⟩

end ScoopEasy
